import Mathlib

/-!
Verification of the prayer-time core of `SalahWidget.py` (Islamic-Widget).

Shallow embedding conventions:
* A `QDateTime` in the configured local timezone is modelled as an `Int`
  counting seconds; day `d` starts at `d * 86400`.  `QDateTime(date, time)`
  becomes `mkQDateTime d secs`, `a.secsTo b` becomes `b - a`, and
  `a.addSecs n` becomes `a + n`.  Python floor division `//` on possibly
  negative ints is `Int.fdiv`.
* A `QTime` parsed from an "HH:mm" provider string is a `ClockTime`
  (hour and minute fields); validity (`hour < 24`, `minute < 60`) is the
  separate predicate `ClockTime.valid`.
* The provider (aladhan API) is a function from a day index to a response
  carrying a status code and seven timings; the code treats `code == 200`
  as success.  Transport exceptions are outside this pure model; the
  non-success status branch is modelled exactly.
* The widget state keeps the fields the claims are about: the
  `prayer_times` mapping (a 7-entry association list in the Python dict's
  insertion order), `next_prayer` / `next_prayer_time` (absent before
  first assignment, hence `Option`), and the two label strings.
* The mutually recursive callback cycle
  `update_countdown -> update_prayer_times -> update_next_prayer ->
  update_countdown` is embedded with explicit fuel; each function also
  returns the number of `update_prayer_times` invocations it performed,
  which the temporal claim about countdown expiry is stated against.
-/

/-- Clock time parsed from an "HH:mm" string by `QTime.fromString`. -/
structure ClockTime where
  hour : Nat
  minute : Nat
deriving DecidableEq, Repr

/-- Seconds since the start of the day. -/
def ClockTime.toSecs (t : ClockTime) : Nat :=
  t.hour * 3600 + t.minute * 60

/-- A well-formed "HH:mm" clock reading. -/
def ClockTime.valid (t : ClockTime) : Prop :=
  t.hour < 24 ∧ t.minute < 60

instance (t : ClockTime) : Decidable t.valid := by
  unfold ClockTime.valid; infer_instance

/-- Model of `QDateTime(date, time)`: absolute seconds of clock time `secs` on day `d`. -/
def mkQDateTime (d : Int) (secs : Nat) : Int :=
  d * 86400 + secs

/-- Model of `IslamicWidget.time_to_datetime`: attach today's date to a parsed
clock time (source lines 388-392). -/
def time_to_datetime (today : Int) (t : ClockTime) : Int :=
  mkQDateTime today t.toSecs

/-- The seven timings of a successful provider response. -/
structure Timings where
  fajr : ClockTime
  sunrise : ClockTime
  dhuhr : ClockTime
  asr : ClockTime
  maghrib : ClockTime
  isha : ClockTime
  midnight : ClockTime
deriving DecidableEq, Repr

/-- A provider response: HTTP-level payload with a status code and the
timings; the code only uses the timings when `code == 200`. -/
structure ApiResponse where
  code : Int
  timings : Timings
deriving DecidableEq, Repr

/-- Context of one callback invocation: today's day index, the current
time, and the provider (a response for each requested day). -/
structure Ctx where
  today : Int
  now : Int
  provider : Int → ApiResponse

/-- The widget fields the prayer subsystem mutates. -/
structure WidgetState where
  prayer_times : List (String × Int)
  next_prayer : Option String
  next_prayer_time : Option Int
  next_prayer_label : String
  countdown_label : String
deriving DecidableEq, Repr

/-- State at construction time: no prayer data, placeholder labels
(source lines 168-170). -/
def initialState : WidgetState :=
  { prayer_times := []
    next_prayer := none
    next_prayer_time := none
    next_prayer_label := "Next Prayer: Calculating..."
    countdown_label := "Time Remaining: --:--:--" }

/-- The seven entries in the Python dict's insertion order, with
`time_to_datetime` applied to each (source lines 347-355). -/
def parseTimings (today : Int) (t : Timings) : List (String × Int) :=
  [("Fajr", time_to_datetime today t.fajr),
   ("Sunrise", time_to_datetime today t.sunrise),
   ("Dhuhr", time_to_datetime today t.dhuhr),
   ("Asr", time_to_datetime today t.asr),
   ("Maghrib", time_to_datetime today t.maghrib),
   ("Isha", time_to_datetime today t.isha),
   ("Midnight", time_to_datetime today t.midnight)]

/-- Model of the dict assignment on source line 373: replace the value
held under the Midnight key of the fixed seven-key mapping. -/
def setMidnight (entries : List (String × Int)) (v : Int) : List (String × Int) :=
  entries.map (fun e => if e.1 = "Midnight" then (e.1, v) else e)

/-- One iteration of the loop at source lines 402-406: keep `e` when it is
strictly future and either nothing is held yet or `e` is strictly
earlier than the held entry. -/
def scanStep (now : Int) : Option (String × Int) → (String × Int) → Option (String × Int)
  | none, e => if now < e.2 then some e else none
  | some b, e => if now < e.2 then (if e.2 < b.2 then some e else some b) else some b

/-- The scan of source lines 399-406: fold over the entries keeping the
earliest strictly-future one (strict `<` on replacement, so the
first-inserted entry wins a tie, matching Python's comparison chain). -/
def scanNext (entries : List (String × Int)) (now : Int) : Option (String × Int) :=
  entries.foldl (scanStep now) none

/-- Zero-padding to two digits, as Python's `{n:02d}` for `n ≥ 0`. -/
def pad2 (n : Nat) : String :=
  if n < 10 then "0" ++ toString n else toString n

/-- The "HH:MM:SS" countdown string of source lines 455-459:
hours `r / 3600`, minutes `(r % 3600) / 60`, seconds `r % 60`. -/
def formatHMS (r : Nat) : String :=
  pad2 (r / 3600) ++ ":" ++ pad2 ((r % 3600) / 60) ++ ":" ++ pad2 (r % 60)

/-!
The callback cycle.  `update_countdown` (lines 448-463) re-enters
`update_prayer_times` (lines 324-386) on expiry, which calls
`update_next_prayer` (lines 394-446), which ends by calling
`update_countdown` again (line 446).  The `Nat` fuel bounds this cycle;
every theorem below is stated with enough fuel that the zero-fuel bailout
is never reached on its inputs.  The second component of each result
counts the `update_prayer_times` invocations performed.
-/

mutual

/-- Model of `IslamicWidget.update_countdown` (source lines 448-463). -/
def update_countdown : Nat → Ctx → WidgetState → WidgetState × Nat
  | 0, _, s => (s, 0)
  | fuel + 1, c, s =>
    match s.next_prayer_time with
    | none => (s, 0)
    | some t =>
      let seconds_remaining : Int := t - c.now
      if 0 < seconds_remaining then
        ({ s with countdown_label :=
              "Time Remaining: " ++ formatHMS seconds_remaining.toNat }, 0)
      else
        update_prayer_times fuel c s

/-- Model of `IslamicWidget.update_prayer_times` (source lines 324-386), with the
provider abstracted as `c.provider`.  The displayed per-prayer labels of
`update_prayer_displays` are outside the modelled state. -/
def update_prayer_times : Nat → Ctx → WidgetState → WidgetState × Nat
  | 0, _, s => (s, 1)
  | fuel + 1, c, s =>
    let resp := c.provider c.today
    if resp.code = 200 then
      let pt := parseTimings c.today resp.timings
      let isha_time := time_to_datetime c.today resp.timings.isha
      let tomorrow := c.today + 1
      let tresp := c.provider tomorrow
      let pt2 :=
        if tresp.code = 200 then
          let tomorrow_fajr := mkQDateTime tomorrow (tresp.timings.fajr).toSecs
          let seconds_between := tomorrow_fajr - isha_time
          let midnight_seconds := Int.fdiv seconds_between 2
          setMidnight pt (isha_time + midnight_seconds)
        else pt
      let r := update_next_prayer fuel c { s with prayer_times := pt2 }
      (r.1, r.2 + 1)
    else
      ({ s with next_prayer_label := "Prayer API Error: Try again later",
                countdown_label := "--:--:--" }, 1)

/-- Model of `IslamicWidget.update_next_prayer` (source lines 394-446). -/
def update_next_prayer : Nat → Ctx → WidgetState → WidgetState × Nat
  | 0, _, s => (s, 0)
  | fuel + 1, c, s =>
    match scanNext s.prayer_times c.now with
    | some e =>
      let s2 := { s with next_prayer := some e.1,
                         next_prayer_time := some e.2,
                         next_prayer_label := "Next: " ++ e.1 }
      update_countdown fuel c s2
    | none =>
      let tomorrow := c.today + 1
      let next_prayer := "Fajr (Tomorrow)"
      let tresp := c.provider tomorrow
      if tresp.code = 200 then
        let t := mkQDateTime tomorrow (tresp.timings.fajr).toSecs
        let s2 := { s with next_prayer := some next_prayer,
                           next_prayer_time := some t,
                           next_prayer_label := "Next: " ++ next_prayer }
        update_countdown fuel c s2
      else
        ({ s with next_prayer_label :=
              "Could not fetch tomorrow\x27s prayer times" }, 0)

end

/-- Model of `IslamicWidget.update_data` (source lines 309-315), restricted to the
modelled fields: the verse and hadith refreshes touch none of them. -/
def update_data (fuel : Nat) (c : Ctx) (s : WidgetState) : WidgetState × Nat :=
  update_prayer_times fuel c s

/-- First delay of the daily timer (source lines 255-267):
`current_time.secsTo(QTime(0,0,0))`, plus a day when negative. -/
def firstDailyDelay (currentSecs : Nat) : Int :=
  let secs_until_midnight : Int := 0 - (currentSecs : Int)
  if secs_until_midnight < 0 then secs_until_midnight + 24 * 60 * 60
  else secs_until_midnight

/-- Rearm interval of `daily_update` (source line 322), in seconds. -/
def dailyRescheduleDelay : Nat := 24 * 60 * 60

/-- All seven provider clock strings are well-formed "HH:mm" readings. -/
def Timings.valid (t : Timings) : Prop :=
  t.fajr.valid ∧ t.sunrise.valid ∧ t.dhuhr.valid ∧ t.asr.valid ∧
  t.maghrib.valid ∧ t.isha.valid ∧ t.midnight.valid

instance (t : Timings) : Decidable t.valid := by
  unfold Timings.valid; infer_instance

/-- A concrete day of timings used to evaluate the theorems: Fajr 05:00,
Sunrise 06:30, Dhuhr 12:00, Asr 15:00, Maghrib 18:00, Isha 20:00, and a
raw provider Midnight of 00:30. -/
def sampleTimings : Timings :=
  { fajr := ⟨5, 0⟩, sunrise := ⟨6, 30⟩, dhuhr := ⟨12, 0⟩, asr := ⟨15, 0⟩,
    maghrib := ⟨18, 0⟩, isha := ⟨20, 0⟩, midnight := ⟨0, 30⟩ }

/-- A provider that always succeeds with `sampleTimings`. -/
def sampleProvider : Int → ApiResponse :=
  fun _ => { code := 200, timings := sampleTimings }

/-- A provider that always fails (HTTP 500). -/
def failProvider : Int → ApiResponse :=
  fun _ => { code := 500, timings := sampleTimings }

/-- Day 0 at local noon with the always-succeeding provider. -/
def sampleCtx : Ctx :=
  { today := 0, now := 43200, provider := sampleProvider }

/-- Day 0 at exactly the Isha timestamp (20:00, second 72000) with the
always-succeeding provider. -/
def ishaCtx : Ctx :=
  { today := 0, now := 72000, provider := sampleProvider }

/-- Day 0 at local noon with the failing provider. -/
def failCtx : Ctx :=
  { today := 0, now := 43200, provider := failProvider }

/-- A state whose stored set is the sample day as parsed and adjusted by
the code: the midnight entry is 88200 = Isha + 16200. -/
def sampleFetchedState : WidgetState :=
  { initialState with
      prayer_times :=
        setMidnight (parseTimings 0 sampleTimings) 88200 }

/-- Day 0 at 22:13:20 (second 80000), past every entry of the raw sample
set, with the always-succeeding provider. -/
def lateCtx : Ctx :=
  { today := 0, now := 80000, provider := sampleProvider }

/-- A state whose stored set is the sample day as parsed, without the
midnight adjustment (the raw Midnight stays at second 1800). -/
def rawFetchedState : WidgetState :=
  { initialState with prayer_times := parseTimings 0 sampleTimings }

/-- A state holding an already-expired next prayer (Dhuhr at 43200),
used against ticks taken at or after that timestamp. -/
def expiredState : WidgetState :=
  { sampleFetchedState with
      next_prayer := some "Dhuhr"
      next_prayer_time := some 43200 }

/-! ## Properties of the next-prayer scan -/

/-- When every entry has already passed, each loop iteration keeps the
accumulator unchanged. -/
theorem foldl_scanStep_of_all_past (now : Int) :
    ∀ (entries : List (String × Int)) (acc : Option (String × Int)),
      (∀ e ∈ entries, e.2 ≤ now) → entries.foldl (scanStep now) acc = acc := by
  intro entries
  induction entries with
  | nil => intro acc _; rfl
  | cons e rest ih =>
    intro acc h
    have he : ¬ now < e.2 := by
      have := h e (List.mem_cons_self e rest)
      omega
    have hstep : scanStep now acc e = acc := by
      cases acc with
      | none => simp only [scanStep]; rw [if_neg he]
      | some b => simp only [scanStep]; rw [if_neg he]
    simp only [List.foldl_cons, hstep]
    exact ih acc (fun x hx => h x (List.mem_cons_of_mem e hx))

/-- Once the accumulator holds an entry, the loop never drops back to
holding nothing. -/
theorem foldl_scanStep_some (now : Int) :
    ∀ (entries : List (String × Int)) (b : String × Int),
      (entries.foldl (scanStep now) (some b)).isSome := by
  intro entries
  induction entries with
  | nil => intro b; rfl
  | cons e rest ih =>
    intro b
    simp only [List.foldl_cons, scanStep]
    by_cases hf : now < e.2
    · rw [if_pos hf]
      by_cases hlt : e.2 < b.2
      · rw [if_pos hlt]; exact ih e
      · rw [if_neg hlt]; exact ih b
    · rw [if_neg hf]; exact ih b

/-- If some entry is strictly future, the loop ends holding an entry. -/
theorem foldl_scanStep_isSome (now : Int) :
    ∀ (entries : List (String × Int)) (acc : Option (String × Int)),
      (∃ e ∈ entries, now < e.2) → (entries.foldl (scanStep now) acc).isSome := by
  intro entries
  induction entries with
  | nil => intro acc h; simp at h
  | cons e rest ih =>
    intro acc h
    obtain ⟨x, hx, hfut⟩ := h
    simp only [List.foldl_cons]
    rcases List.mem_cons.mp hx with hxe | hmem
    · rw [hxe] at hfut
      have hsome : ∃ b, scanStep now acc e = some b := by
        cases acc with
        | none => exact ⟨e, by simp only [scanStep]; rw [if_pos hfut]⟩
        | some a =>
          simp only [scanStep]
          rw [if_pos hfut]
          by_cases hlt : e.2 < a.2
          · rw [if_pos hlt]; exact ⟨e, rfl⟩
          · rw [if_neg hlt]; exact ⟨a, rfl⟩
      obtain ⟨b, hb⟩ := hsome
      rw [hb]
      exact foldl_scanStep_some now rest b
    · exact ih (scanStep now acc e) ⟨x, hmem, hfut⟩

/-- Full characterization of the loop result: any held final entry is a
strictly future stored entry (or the initial accumulator), no later than
the initial accumulator and no later than any strictly future stored
entry. -/
theorem foldl_scanStep_spec (now : Int) :
    ∀ (entries : List (String × Int)) (acc : Option (String × Int)),
      (∀ b, acc = some b → now < b.2) →
      ∀ r, entries.foldl (scanStep now) acc = some r →
        now < r.2 ∧ (acc = some r ∨ r ∈ entries) ∧
        (∀ a, acc = some a → r.2 ≤ a.2) ∧
        (∀ e ∈ entries, now < e.2 → r.2 ≤ e.2) := by
  intro entries
  induction entries with
  | nil =>
    intro acc hacc r hr
    simp only [List.foldl_nil] at hr
    refine ⟨hacc r hr, Or.inl hr, ?_, ?_⟩
    · intro a ha
      rw [hr] at ha
      obtain rfl : r = a := Option.some.inj ha
      exact le_refl _
    · intro x hx
      exact absurd hx (List.not_mem_nil x)
  | cons e rest ih =>
    intro acc hacc r hr
    simp only [List.foldl_cons] at hr
    have hstep : ∀ b, scanStep now acc e = some b →
        now < b.2 ∧ (b = e ∨ acc = some b) ∧
        (∀ a, acc = some a → b.2 ≤ a.2) ∧ (now < e.2 → b.2 ≤ e.2) := by
      intro b hb
      cases acc with
      | none =>
        simp only [scanStep] at hb
        by_cases hf : now < e.2
        · rw [if_pos hf] at hb
          obtain rfl : e = b := Option.some.inj hb
          exact ⟨hf, Or.inl rfl, fun a ha => Option.noConfusion ha,
                 fun _ => le_refl _⟩
        · rw [if_neg hf] at hb
          exact Option.noConfusion hb
      | some a =>
        simp only [scanStep] at hb
        by_cases hf : now < e.2
        · rw [if_pos hf] at hb
          by_cases hlt : e.2 < a.2
          · rw [if_pos hlt] at hb
            obtain rfl : e = b := Option.some.inj hb
            refine ⟨hf, Or.inl rfl, ?_, fun _ => le_refl _⟩
            intro a' ha'
            obtain rfl : a = a' := Option.some.inj ha'
            exact le_of_lt hlt
          · rw [if_neg hlt] at hb
            obtain rfl : a = b := Option.some.inj hb
            refine ⟨hacc a rfl, Or.inr rfl, ?_, fun _ => by omega⟩
            intro a' ha'
            obtain rfl : a = a' := Option.some.inj ha'
            exact le_refl _
        · rw [if_neg hf] at hb
          obtain rfl : a = b := Option.some.inj hb
          refine ⟨hacc a rfl, Or.inr rfl, ?_, fun h => absurd h hf⟩
          intro a' ha'
          obtain rfl : a = a' := Option.some.inj ha'
          exact le_refl _
    have hacc' : ∀ b, scanStep now acc e = some b → now < b.2 :=
      fun b hb => (hstep b hb).1
    obtain ⟨h1, h2, h3, h4⟩ := ih (scanStep now acc e) hacc' r hr
    refine ⟨h1, ?_, ?_, ?_⟩
    · rcases h2 with hacc'r | hmem
      · rcases (hstep r hacc'r).2.1 with rfl | haccr
        · exact Or.inr (List.mem_cons_self r rest)
        · exact Or.inl haccr
      · exact Or.inr (List.mem_cons_of_mem e hmem)
    · intro a ha
      subst ha
      have hsome : ∃ b, scanStep now (some a) e = some b := by
        simp only [scanStep]
        by_cases hf : now < e.2
        · rw [if_pos hf]
          by_cases hlt : e.2 < a.2
          · rw [if_pos hlt]; exact ⟨e, rfl⟩
          · rw [if_neg hlt]; exact ⟨a, rfl⟩
        · rw [if_neg hf]; exact ⟨a, rfl⟩
      obtain ⟨b, hb⟩ := hsome
      exact le_trans (h3 b hb) ((hstep b hb).2.2.1 a rfl)
    · intro x hx hfut
      rcases List.mem_cons.mp hx with hxe | hmem
      · rw [hxe] at hfut ⊢
        have hsome : ∃ b, scanStep now acc e = some b := by
          cases acc with
          | none => exact ⟨e, by simp only [scanStep]; rw [if_pos hfut]⟩
          | some a =>
            simp only [scanStep]
            rw [if_pos hfut]
            by_cases hlt : e.2 < a.2
            · rw [if_pos hlt]; exact ⟨e, rfl⟩
            · rw [if_neg hlt]; exact ⟨a, rfl⟩
        obtain ⟨b, hb⟩ := hsome
        exact le_trans (h3 b hb) ((hstep b hb).2.2.2 hfut)
      · exact h4 x hmem hfut

/-- The scan finds nothing exactly when every stored entry is at or
before `now`. -/
theorem scanNext_none_of_all_past (entries : List (String × Int)) (now : Int)
    (h : ∀ e ∈ entries, e.2 ≤ now) : scanNext entries now = none :=
  foldl_scanStep_of_all_past now entries none h

/-- If some stored entry is strictly future, the scan returns a strictly
future stored entry that is earliest among the strictly future ones. -/
theorem scanNext_spec (entries : List (String × Int)) (now : Int)
    (h : ∃ e ∈ entries, now < e.2) :
    ∃ r, scanNext entries now = some r ∧ r ∈ entries ∧ now < r.2 ∧
      ∀ e ∈ entries, now < e.2 → r.2 ≤ e.2 := by
  have hs := foldl_scanStep_isSome now entries none h
  obtain ⟨r, hr⟩ := Option.isSome_iff_exists.mp hs
  obtain ⟨h1, h2, h3, h4⟩ :=
    foldl_scanStep_spec now entries none (fun b hb => Option.noConfusion hb) r hr
  rcases h2 with hnone | hmem
  · exact Option.noConfusion hnone
  · exact ⟨r, hr, hmem, h1, h4⟩

/-! ## Behaviour of the callback cycle -/

/-- A tick taken strictly before the stored next prayer only rewrites the
countdown label (positive branch of source lines 454-460). -/
theorem update_countdown_pos (fuel : Nat) (c : Ctx) (s : WidgetState) (t : Int)
    (hset : s.next_prayer_time = some t) (hpos : c.now < t) :
    update_countdown (fuel + 1) c s =
      ({ s with countdown_label :=
           "Time Remaining: " ++ formatHMS (t - c.now).toNat }, 0) := by
  simp only [update_countdown, hset]
  rw [if_pos (by omega : (0 : Int) < t - c.now)]

/-- A tick taken strictly before the stored next prayer, at any fuel,
keeps the stored set and resolution and performs no refresh. -/
theorem update_countdown_keeps_resolution (fuel : Nat) (c : Ctx) (s : WidgetState)
    (t : Int) (hset : s.next_prayer_time = some t) (hpos : c.now < t) :
    (update_countdown fuel c s).1.prayer_times = s.prayer_times ∧
    (update_countdown fuel c s).1.next_prayer = s.next_prayer ∧
    (update_countdown fuel c s).1.next_prayer_time = s.next_prayer_time ∧
    (update_countdown fuel c s).1.next_prayer_label = s.next_prayer_label ∧
    (update_countdown fuel c s).2 = 0 := by
  cases fuel with
  | zero => exact ⟨rfl, rfl, rfl, rfl, rfl⟩
  | succ n =>
    rw [update_countdown_pos n c s t hset hpos]
    exact ⟨rfl, rfl, rfl, rfl, rfl⟩

/-- C1: For every stored set of prayer timestamps and every current time
with at least one timestamp strictly greater than now, the next-prayer
resolution stores the name and timestamp of a stored entry that is
strictly future and whose timestamp is smallest among the strictly
future ones. -/
theorem update_next_prayer_selects_earliest_future
    (fuel : Nat) (c : Ctx) (s : WidgetState)
    (h : ∃ e ∈ s.prayer_times, c.now < e.2) :
    ∃ p t,
      (update_next_prayer (fuel + 1) c s).1.next_prayer = some p ∧
      (update_next_prayer (fuel + 1) c s).1.next_prayer_time = some t ∧
      (p, t) ∈ s.prayer_times ∧ c.now < t ∧
      ∀ e ∈ s.prayer_times, c.now < e.2 → t ≤ e.2 := by
  obtain ⟨r, hr, hmem, hfut, hmin⟩ := scanNext_spec s.prayer_times c.now h
  refine ⟨r.1, r.2, ?_⟩
  simp only [update_next_prayer, hr]
  obtain ⟨_, hp2, hp3, _, _⟩ :=
    update_countdown_keeps_resolution fuel c
      { s with next_prayer := some r.1, next_prayer_time := some r.2,
               next_prayer_label := "Next: " ++ r.1 } r.2 rfl hfut
  rw [hp2, hp3]
  refine ⟨rfl, rfl, ?_, hfut, hmin⟩
  rw [Prod.mk.eta]
  exact hmem

/-- Witness for C1 at the sample day, taken at noon: the conclusion holds
with Asr (54000) as the selected prayer. -/
theorem update_next_prayer_selects_earliest_future_witness :
    ∃ p t,
      (update_next_prayer 3 sampleCtx sampleFetchedState).1.next_prayer = some p ∧
      (update_next_prayer 3 sampleCtx sampleFetchedState).1.next_prayer_time = some t ∧
      (p, t) ∈ sampleFetchedState.prayer_times ∧ sampleCtx.now < t ∧
      ∀ e ∈ sampleFetchedState.prayer_times, sampleCtx.now < e.2 → t ≤ e.2 :=
  update_next_prayer_selects_earliest_future 2 sampleCtx sampleFetchedState (by decide)

/-- C2: When no stored timestamp is strictly greater than now (and now is
still within today), the resolution falls back to tomorrow's Fajr: with a
successful fetch it stores the name "Fajr (Tomorrow)" and the timestamp
obtained by combining tomorrow's date with the fetched Fajr clock time. -/
theorem update_next_prayer_fallback_tomorrow_fajr
    (fuel : Nat) (c : Ctx) (s : WidgetState)
    (hall : ∀ e ∈ s.prayer_times, e.2 ≤ c.now)
    (hok : (c.provider (c.today + 1)).code = 200)
    (hnow : c.now < (c.today + 1) * 86400) :
    (update_next_prayer (fuel + 1) c s).1.next_prayer = some "Fajr (Tomorrow)" ∧
    (update_next_prayer (fuel + 1) c s).1.next_prayer_time =
      some (mkQDateTime (c.today + 1)
        ((c.provider (c.today + 1)).timings.fajr).toSecs) := by
  have hscan := scanNext_none_of_all_past s.prayer_times c.now hall
  simp only [update_next_prayer, hscan]
  rw [if_pos hok]
  have htpos :
      c.now < mkQDateTime (c.today + 1)
        ((c.provider (c.today + 1)).timings.fajr).toSecs := by
    unfold mkQDateTime
    have hnn : (0 : Int) ≤ (((c.provider (c.today + 1)).timings.fajr).toSecs : Int) :=
      Int.ofNat_nonneg _
    omega
  obtain ⟨_, hp2, hp3, _, _⟩ :=
    update_countdown_keeps_resolution fuel c
      { s with next_prayer := some "Fajr (Tomorrow)",
               next_prayer_time := some (mkQDateTime (c.today + 1)
                 ((c.provider (c.today + 1)).timings.fajr).toSecs),
               next_prayer_label := "Next: " ++ "Fajr (Tomorrow)" }
      (mkQDateTime (c.today + 1) ((c.provider (c.today + 1)).timings.fajr).toSecs)
      rfl htpos
  rw [hp2, hp3]
  exact ⟨rfl, rfl⟩

/-- Witness for C2: at 22:13:20 of day 0 (second 80000), past every entry
of the raw sample set, the fallback stores tomorrow's Fajr at second
104400 of the model timeline (05:00 on day 1). -/
theorem update_next_prayer_fallback_tomorrow_fajr_witness :
    (update_next_prayer 3 lateCtx rawFetchedState).1.next_prayer =
        some "Fajr (Tomorrow)" ∧
    (update_next_prayer 3 lateCtx rawFetchedState).1.next_prayer_time =
      some (mkQDateTime (lateCtx.today + 1)
        ((lateCtx.provider (lateCtx.today + 1)).timings.fajr).toSecs) :=
  update_next_prayer_fallback_tomorrow_fajr 2 lateCtx rawFetchedState
    (by decide) (by decide) (by decide)

/-- C3 counterexample: on the code-built state for the sample day, taken
at exactly the stored Isha timestamp (20:00, second 72000 of day 0), the
resolution selects today's Midnight entry (adjusted to second 88200,
00:30 of day 1) and not the tomorrow-Fajr fallback. -/
theorem resolver_at_isha_selects_midnight :
    ishaCtx.now = 72000 ∧
    ("Isha", (72000 : Int)) ∈
      (update_prayer_times 5 ishaCtx initialState).1.prayer_times ∧
    (update_prayer_times 5 ishaCtx initialState).1.next_prayer = some "Midnight" ∧
    (update_prayer_times 5 ishaCtx initialState).1.next_prayer_time = some 88200 ∧
    ("Midnight", (88200 : Int)) ∈
      (update_prayer_times 5 ishaCtx initialState).1.prayer_times ∧
    (update_prayer_times 5 ishaCtx initialState).1.next_prayer ≠
      some "Fajr (Tomorrow)" := by
  decide

/-- C3 (amended): for every current time at or after the latest stored
timestamp — after the midnight adjustment this is the adjusted Midnight,
not Isha — the scan of source lines 399-406 selects no entry of today's
set, which is exactly the condition under which `update_next_prayer`
enters the tomorrow-Fajr fallback of source lines 410-438. -/
theorem scan_empty_at_or_after_latest
    (entries : List (String × Int)) (now : Int)
    (h : ∀ e ∈ entries, e.2 ≤ now) :
    scanNext entries now = none :=
  scanNext_none_of_all_past entries now h

/-- Witness for the amended C3 on the adjusted sample set at second 88200
(the adjusted Midnight itself, the latest entry). -/
theorem scan_empty_at_or_after_latest_witness :
    scanNext sampleFetchedState.prayer_times 88200 = none :=
  scan_empty_at_or_after_latest sampleFetchedState.prayer_times 88200 (by decide)

/-- Resolution never alters the stored set while the current time is
still within today: every branch either leaves it untouched or only
rewrites labels and the resolved next prayer. -/
theorem update_next_prayer_keeps_times
    (fuel : Nat) (c : Ctx) (s : WidgetState)
    (hnow : c.now < (c.today + 1) * 86400) :
    (update_next_prayer fuel c s).1.prayer_times = s.prayer_times := by
  cases fuel with
  | zero => rfl
  | succ n =>
    by_cases h : ∃ e ∈ s.prayer_times, c.now < e.2
    · obtain ⟨r, hr, hmem, hfut, hmin⟩ := scanNext_spec s.prayer_times c.now h
      simp only [update_next_prayer, hr]
      exact (update_countdown_keeps_resolution n c _ r.2 rfl hfut).1
    · push_neg at h
      have hscan := scanNext_none_of_all_past s.prayer_times c.now h
      simp only [update_next_prayer, hscan]
      by_cases hok : (c.provider (c.today + 1)).code = 200
      · rw [if_pos hok]
        have htpos : c.now < mkQDateTime (c.today + 1)
            ((c.provider (c.today + 1)).timings.fajr).toSecs := by
          unfold mkQDateTime
          have hnn : (0 : Int) ≤
              (((c.provider (c.today + 1)).timings.fajr).toSecs : Int) :=
            Int.ofNat_nonneg _
          omega
        exact (update_countdown_keeps_resolution n c _ _ rfl htpos).1
      · rw [if_neg hok]

/-- The dict assignment on `Midnight` leaves the assigned pair in the
mapping. -/
theorem setMidnight_mem (today : Int) (tm : Timings) (v : Int) :
    ("Midnight", v) ∈ setMidnight (parseTimings today tm) v := by
  simp [setMidnight, parseTimings]

/-- The freshly parsed mapping contains the raw Midnight entry. -/
theorem parseTimings_midnight_mem (today : Int) (tm : Timings) :
    ("Midnight", time_to_datetime today tm.midnight) ∈ parseTimings today tm := by
  simp [parseTimings]

/-- C4: On a successful fetch, when tomorrow's Fajr is available the
stored Midnight entry becomes Isha plus the floor of half the
Isha-to-tomorrow-Fajr gap in exact integer seconds; for Isha 20:00 today
and tomorrow's Fajr 05:00 this is 00:30 on the next day.  When
tomorrow's fetch does not succeed, the provider's raw Midnight value
stands. -/
theorem midnight_midpoint_adjustment
    (fuel : Nat) (c : Ctx) (s : WidgetState)
    (h200 : (c.provider c.today).code = 200)
    (hnow : c.now < (c.today + 1) * 86400) :
    (((c.provider (c.today + 1)).code = 200 →
        ("Midnight",
          time_to_datetime c.today (c.provider c.today).timings.isha +
            Int.fdiv
              (mkQDateTime (c.today + 1)
                  ((c.provider (c.today + 1)).timings.fajr).toSecs -
                time_to_datetime c.today (c.provider c.today).timings.isha) 2) ∈
          (update_prayer_times (fuel + 1) c s).1.prayer_times) ∧
      (¬ (c.provider (c.today + 1)).code = 200 →
        ("Midnight",
          time_to_datetime c.today (c.provider c.today).timings.midnight) ∈
          (update_prayer_times (fuel + 1) c s).1.prayer_times)) ∧
    mkQDateTime 0 (ClockTime.toSecs ⟨20, 0⟩) +
        Int.fdiv (mkQDateTime 1 (ClockTime.toSecs ⟨5, 0⟩) -
          mkQDateTime 0 (ClockTime.toSecs ⟨20, 0⟩)) 2 =
      mkQDateTime 1 (ClockTime.toSecs ⟨0, 30⟩) := by
  have hbase :
      (update_prayer_times (fuel + 1) c s).1.prayer_times =
        (if (c.provider (c.today + 1)).code = 200 then
          setMidnight (parseTimings c.today (c.provider c.today).timings)
            (time_to_datetime c.today (c.provider c.today).timings.isha +
              Int.fdiv
                (mkQDateTime (c.today + 1)
                    ((c.provider (c.today + 1)).timings.fajr).toSecs -
                  time_to_datetime c.today (c.provider c.today).timings.isha) 2)
        else parseTimings c.today (c.provider c.today).timings) := by
    simp only [update_prayer_times]
    rw [if_pos h200]
    rw [update_next_prayer_keeps_times fuel c _ hnow]
  refine ⟨⟨?_, ?_⟩, by decide⟩
  · intro hok
    rw [hbase, if_pos hok]
    exact setMidnight_mem _ _ _
  · intro hok
    rw [hbase, if_neg hok]
    exact parseTimings_midnight_mem _ _

/-- Witness for C4 on the sample day at noon: both implications of the
conclusion are inhabited at this input (the succeeding one gives the
adjusted entry at second 88200). -/
theorem midnight_midpoint_adjustment_witness :
    (((sampleCtx.provider (sampleCtx.today + 1)).code = 200 →
        ("Midnight",
          time_to_datetime sampleCtx.today
              (sampleCtx.provider sampleCtx.today).timings.isha +
            Int.fdiv
              (mkQDateTime (sampleCtx.today + 1)
                  ((sampleCtx.provider (sampleCtx.today + 1)).timings.fajr).toSecs -
                time_to_datetime sampleCtx.today
                  (sampleCtx.provider sampleCtx.today).timings.isha) 2) ∈
          (update_prayer_times 3 sampleCtx initialState).1.prayer_times) ∧
      (¬ (sampleCtx.provider (sampleCtx.today + 1)).code = 200 →
        ("Midnight",
          time_to_datetime sampleCtx.today
            (sampleCtx.provider sampleCtx.today).timings.midnight) ∈
          (update_prayer_times 3 sampleCtx initialState).1.prayer_times)) ∧
    mkQDateTime 0 (ClockTime.toSecs ⟨20, 0⟩) +
        Int.fdiv (mkQDateTime 1 (ClockTime.toSecs ⟨5, 0⟩) -
          mkQDateTime 0 (ClockTime.toSecs ⟨20, 0⟩)) 2 =
      mkQDateTime 1 (ClockTime.toSecs ⟨0, 30⟩) :=
  midnight_midpoint_adjustment 2 sampleCtx initialState (by decide) (by decide)

/-- C5: A tick with strictly positive remaining seconds displays the
remaining time as zero-padded "HH:MM:SS" with hours `r / 3600`, minutes
`(r % 3600) / 60` and seconds `r % 60`; 3661 remaining seconds format as
"01:01:01". -/
theorem countdown_formats_hms
    (fuel : Nat) (c : Ctx) (s : WidgetState) (t : Int)
    (hset : s.next_prayer_time = some t) (hpos : 0 < t - c.now) :
    (update_countdown (fuel + 1) c s).1.countdown_label =
      "Time Remaining: " ++
        (pad2 ((t - c.now).toNat / 3600) ++ ":" ++
          pad2 ((t - c.now).toNat % 3600 / 60) ++ ":" ++
          pad2 ((t - c.now).toNat % 60)) ∧
    formatHMS 3661 = "01:01:01" := by
  constructor
  · rw [update_countdown_pos fuel c s t hset (by omega)]
    rfl
  · decide

/-- Witness for C5: a tick of `expiredState` taken at second 39539 of day
0 leaves 3661 seconds to Dhuhr (second 43200). -/
theorem countdown_formats_hms_witness :
    (update_countdown 3
        { today := 0, now := 39539, provider := sampleProvider }
        expiredState).1.countdown_label =
      "Time Remaining: " ++
        (pad2 (((43200 : Int) - 39539).toNat / 3600) ++ ":" ++
          pad2 (((43200 : Int) - 39539).toNat % 3600 / 60) ++ ":" ++
          pad2 (((43200 : Int) - 39539).toNat % 60)) ∧
    formatHMS 3661 = "01:01:01" :=
  countdown_formats_hms 2
    { today := 0, now := 39539, provider := sampleProvider }
    expiredState 43200 (by decide) (by decide)

/-- With the fallback fetch succeeding and the current time still within
today, resolution always ends with a strictly future next prayer, a
freshly formatted countdown label, and no refresh invocation of its
own. -/
theorem update_next_prayer_resolves
    (fuel : Nat) (c : Ctx) (s : WidgetState)
    (hok : (c.provider (c.today + 1)).code = 200)
    (hnow : c.now < (c.today + 1) * 86400) :
    (update_next_prayer (fuel + 2) c s).2 = 0 ∧
    ∃ t2, (update_next_prayer (fuel + 2) c s).1.next_prayer_time = some t2 ∧
      c.now < t2 ∧
      (update_next_prayer (fuel + 2) c s).1.countdown_label =
        "Time Remaining: " ++ formatHMS (t2 - c.now).toNat := by
  by_cases h : ∃ e ∈ s.prayer_times, c.now < e.2
  · obtain ⟨r, hr, hmem, hfut, hmin⟩ := scanNext_spec s.prayer_times c.now h
    simp only [update_next_prayer, hr]
    rw [update_countdown_pos fuel c
      { s with next_prayer := some r.1, next_prayer_time := some r.2,
               next_prayer_label := "Next: " ++ r.1 } r.2 rfl hfut]
    exact ⟨rfl, r.2, rfl, hfut, rfl⟩
  · push_neg at h
    have hscan := scanNext_none_of_all_past s.prayer_times c.now h
    simp only [update_next_prayer, hscan]
    rw [if_pos hok]
    have htpos : c.now < mkQDateTime (c.today + 1)
        ((c.provider (c.today + 1)).timings.fajr).toSecs := by
      unfold mkQDateTime
      have hnn : (0 : Int) ≤
          (((c.provider (c.today + 1)).timings.fajr).toSecs : Int) :=
        Int.ofNat_nonneg _
      omega
    rw [update_countdown_pos fuel c
      { s with next_prayer := some "Fajr (Tomorrow)",
               next_prayer_time := some (mkQDateTime (c.today + 1)
                 ((c.provider (c.today + 1)).timings.fajr).toSecs),
               next_prayer_label := "Next: " ++ "Fajr (Tomorrow)" }
      (mkQDateTime (c.today + 1) ((c.provider (c.today + 1)).timings.fajr).toSecs)
      rfl htpos]
    exact ⟨rfl, _, rfl, htpos, rfl⟩

/-- A successful full refresh performs exactly one fetch-and-resolve pass
and ends with a strictly future next prayer and a formatted countdown. -/
theorem update_prayer_times_success
    (fuel : Nat) (c : Ctx) (s : WidgetState)
    (h200 : (c.provider c.today).code = 200)
    (ht200 : (c.provider (c.today + 1)).code = 200)
    (hnow : c.now < (c.today + 1) * 86400) :
    (update_prayer_times (fuel + 3) c s).2 = 1 ∧
    ∃ t2, (update_prayer_times (fuel + 3) c s).1.next_prayer_time = some t2 ∧
      c.now < t2 ∧
      (update_prayer_times (fuel + 3) c s).1.countdown_label =
        "Time Remaining: " ++ formatHMS (t2 - c.now).toNat := by
  simp only [update_prayer_times]
  rw [if_pos h200]
  constructor
  · rw [(update_next_prayer_resolves fuel c _ ht200 hnow).1]
  · exact (update_next_prayer_resolves fuel c _ ht200 hnow).2

/-- While the current time is within today, resolution never re-enters
the refresh: every branch ends either on the positive countdown branch
or on an error label. -/
theorem update_next_prayer_count_zero
    (fuel : Nat) (c : Ctx) (s : WidgetState)
    (hnow : c.now < (c.today + 1) * 86400) :
    (update_next_prayer fuel c s).2 = 0 := by
  cases fuel with
  | zero => rfl
  | succ n =>
    by_cases h : ∃ e ∈ s.prayer_times, c.now < e.2
    · obtain ⟨r, hr, hmem, hfut, hmin⟩ := scanNext_spec s.prayer_times c.now h
      simp only [update_next_prayer, hr]
      exact (update_countdown_keeps_resolution n c _ r.2 rfl hfut).2.2.2.2
    · push_neg at h
      have hscan := scanNext_none_of_all_past s.prayer_times c.now h
      simp only [update_next_prayer, hscan]
      by_cases hok : (c.provider (c.today + 1)).code = 200
      · rw [if_pos hok]
        have htpos : c.now < mkQDateTime (c.today + 1)
            ((c.provider (c.today + 1)).timings.fajr).toSecs := by
          unfold mkQDateTime
          have hnn : (0 : Int) ≤
              (((c.provider (c.today + 1)).timings.fajr).toSecs : Int) :=
            Int.ofNat_nonneg _
          omega
        exact (update_countdown_keeps_resolution n c _ _ rfl htpos).2.2.2.2
      · rw [if_neg hok]

/-- Any refresh invocation performed while the current time is within
today counts as exactly one fetch-and-resolve pass, whatever the
provider answers. -/
theorem update_prayer_times_count_one
    (fuel : Nat) (c : Ctx) (s : WidgetState)
    (hnow : c.now < (c.today + 1) * 86400) :
    (update_prayer_times (fuel + 1) c s).2 = 1 := by
  by_cases h200 : (c.provider c.today).code = 200
  · simp only [update_prayer_times]
    rw [if_pos h200]
    rw [update_next_prayer_count_zero fuel c _ hnow]
  · simp only [update_prayer_times]
    rw [if_neg h200]

/-- C6: A tick whose remaining time is non-positive invokes the full
prayer-time refresh exactly once — never a loop of repeated refreshes
within the tick — and when the provider succeeds the tick ends with a
strictly future next prayer whose countdown label is the formatted
positive remainder, so no negative value is displayed. -/
theorem countdown_expiry_single_refresh
    (fuel : Nat) (c : Ctx) (s : WidgetState) (t : Int)
    (hset : s.next_prayer_time = some t)
    (hexp : t - c.now ≤ 0)
    (hnow : c.now < (c.today + 1) * 86400) :
    (update_countdown (fuel + 4) c s).2 = 1 ∧
    ((c.provider c.today).code = 200 → (c.provider (c.today + 1)).code = 200 →
      ∃ t2, (update_countdown (fuel + 4) c s).1.next_prayer_time = some t2 ∧
        c.now < t2 ∧
        (update_countdown (fuel + 4) c s).1.countdown_label =
          "Time Remaining: " ++ formatHMS (t2 - c.now).toNat) := by
  have hcd : update_countdown (fuel + 4) c s = update_prayer_times (fuel + 3) c s := by
    simp only [update_countdown, hset]
    rw [if_neg (by omega : ¬ (0 : Int) < t - c.now)]
  rw [hcd]
  constructor
  · exact update_prayer_times_count_one (fuel + 2) c s hnow
  · intro h200 ht200
    exact (update_prayer_times_success fuel c s h200 ht200 hnow).2

/-- Witness for C6: the tick of `expiredState` at noon (Dhuhr just
expired) refreshes once and ends on Asr (second 54000). -/
theorem countdown_expiry_single_refresh_witness :
    (update_countdown 5 sampleCtx expiredState).2 = 1 ∧
    ((sampleCtx.provider sampleCtx.today).code = 200 →
      (sampleCtx.provider (sampleCtx.today + 1)).code = 200 →
      ∃ t2, (update_countdown 5 sampleCtx expiredState).1.next_prayer_time = some t2 ∧
        sampleCtx.now < t2 ∧
        (update_countdown 5 sampleCtx expiredState).1.countdown_label =
          "Time Remaining: " ++ formatHMS (t2 - sampleCtx.now).toNat) :=
  countdown_expiry_single_refresh 1 sampleCtx expiredState 43200
    (by decide) (by decide) (by decide)

/-- C7: The daily timer's first delay is the time to the next local
midnight — the naive seconds-to-00:00:00 difference, plus 24 hours
whenever that difference is negative — so 23:59:50 (second 86390 of the
day) gives 10 seconds, and every rearm delay is exactly 86400 seconds. -/
theorem daily_timer_delays (cs : Nat) (h1 : 0 < cs) (h2 : cs < 86400) :
    firstDailyDelay cs = 86400 - (cs : Int) ∧
    firstDailyDelay 86390 = 10 ∧
    dailyRescheduleDelay = 86400 := by
  refine ⟨?_, by decide, by decide⟩
  simp only [firstDailyDelay]
  rw [if_pos (by omega : (0 : Int) - (cs : Int) < 0)]
  omega

/-- Witness for C7 at 23:59:50 (second 86390). -/
theorem daily_timer_delays_witness :
    firstDailyDelay 86390 = 86400 - (86390 : Int) ∧
    firstDailyDelay 86390 = 10 ∧
    dailyRescheduleDelay = 86400 :=
  daily_timer_delays 86390 (by decide) (by decide)

/-- C8: When the provider returns a non-success status, the next prayer
stays unset, the labels show the designated error string and the
countdown placeholder, and every subsequent countdown tick — at any fuel
and any later clock reading — is a no-op on the state. -/
theorem provider_failure_leaves_unset
    (fuel : Nat) (c : Ctx) (s : WidgetState)
    (hunset : s.next_prayer_time = none)
    (hfail : ¬ (c.provider c.today).code = 200) :
    ((update_prayer_times (fuel + 1) c s).1.next_prayer_time = none ∧
      (update_prayer_times (fuel + 1) c s).1.next_prayer = s.next_prayer ∧
      (update_prayer_times (fuel + 1) c s).1.next_prayer_label =
        "Prayer API Error: Try again later" ∧
      (update_prayer_times (fuel + 1) c s).1.countdown_label = "--:--:--") ∧
    ∀ (g : Nat) (c2 : Ctx),
      update_countdown g c2 (update_prayer_times (fuel + 1) c s).1 =
        ((update_prayer_times (fuel + 1) c s).1, 0) := by
  have hres : update_prayer_times (fuel + 1) c s =
      ({ s with next_prayer_label := "Prayer API Error: Try again later",
                countdown_label := "--:--:--" }, 1) := by
    simp only [update_prayer_times]
    rw [if_neg hfail]
  rw [hres]
  refine ⟨⟨hunset, rfl, rfl, rfl⟩, ?_⟩
  intro g c2
  cases g with
  | zero => rfl
  | succ n =>
    simp only [update_countdown]
    rw [show ({ s with
          next_prayer_label := "Prayer API Error: Try again later",
          countdown_label := "--:--:--" } : WidgetState).next_prayer_time =
        none from hunset]

/-- Witness for C8: the failing provider at noon of day 0, starting from
the freshly constructed state. -/
theorem provider_failure_leaves_unset_witness :
    ((update_prayer_times 3 failCtx initialState).1.next_prayer_time = none ∧
      (update_prayer_times 3 failCtx initialState).1.next_prayer =
        initialState.next_prayer ∧
      (update_prayer_times 3 failCtx initialState).1.next_prayer_label =
        "Prayer API Error: Try again later" ∧
      (update_prayer_times 3 failCtx initialState).1.countdown_label = "--:--:--") ∧
    ∀ (g : Nat) (c2 : Ctx),
      update_countdown g c2 (update_prayer_times 3 failCtx initialState).1 =
        ((update_prayer_times 3 failCtx initialState).1, 0) :=
  provider_failure_leaves_unset 2 failCtx initialState (by decide) (by decide)

/-- Two input states with the same stored set resolve to the same result
state when the fallback fetch succeeds and the current time is within
today: every other field is overwritten by the resolution pass. -/
theorem update_next_prayer_state_indep
    (fuel : Nat) (c : Ctx) (s s2 : WidgetState)
    (hpt : s.prayer_times = s2.prayer_times)
    (hok : (c.provider (c.today + 1)).code = 200)
    (hnow : c.now < (c.today + 1) * 86400) :
    (update_next_prayer (fuel + 2) c s).1 = (update_next_prayer (fuel + 2) c s2).1 := by
  by_cases h : ∃ e ∈ s.prayer_times, c.now < e.2
  · obtain ⟨r, hr, hmem, hfut, hmin⟩ := scanNext_spec s.prayer_times c.now h
    have hr2 : scanNext s2.prayer_times c.now = some r := by
      rw [← hpt]; exact hr
    simp only [update_next_prayer, hr, hr2]
    rw [update_countdown_pos fuel c
      { s with next_prayer := some r.1, next_prayer_time := some r.2,
               next_prayer_label := "Next: " ++ r.1 } r.2 rfl hfut]
    rw [update_countdown_pos fuel c
      { s2 with next_prayer := some r.1, next_prayer_time := some r.2,
                next_prayer_label := "Next: " ++ r.1 } r.2 rfl hfut]
    cases s
    cases s2
    simp only at hpt
    simp [hpt]
  · push_neg at h
    have hscan := scanNext_none_of_all_past s.prayer_times c.now h
    have hscan2 : scanNext s2.prayer_times c.now = none := by
      rw [← hpt]; exact hscan
    simp only [update_next_prayer, hscan, hscan2]
    rw [if_pos hok, if_pos hok]
    have htpos : c.now < mkQDateTime (c.today + 1)
        ((c.provider (c.today + 1)).timings.fajr).toSecs := by
      unfold mkQDateTime
      have hnn : (0 : Int) ≤
          (((c.provider (c.today + 1)).timings.fajr).toSecs : Int) :=
        Int.ofNat_nonneg _
      omega
    rw [update_countdown_pos fuel c
      { s with next_prayer := some "Fajr (Tomorrow)",
               next_prayer_time := some (mkQDateTime (c.today + 1)
                 ((c.provider (c.today + 1)).timings.fajr).toSecs),
               next_prayer_label := "Next: " ++ "Fajr (Tomorrow)" }
      (mkQDateTime (c.today + 1) ((c.provider (c.today + 1)).timings.fajr).toSecs)
      rfl htpos]
    rw [update_countdown_pos fuel c
      { s2 with next_prayer := some "Fajr (Tomorrow)",
                next_prayer_time := some (mkQDateTime (c.today + 1)
                  ((c.provider (c.today + 1)).timings.fajr).toSecs),
                next_prayer_label := "Next: " ++ "Fajr (Tomorrow)" }
      (mkQDateTime (c.today + 1) ((c.provider (c.today + 1)).timings.fajr).toSecs)
      rfl htpos]
    cases s
    cases s2
    simp only at hpt
    simp [hpt]

/-- On a successful fetch, the refresh result state is the resolution of
the freshly parsed (and possibly midnight-adjusted) set. -/
theorem update_prayer_times_succ_eq
    (fuel : Nat) (c : Ctx) (s : WidgetState)
    (h200 : (c.provider c.today).code = 200) :
    (update_prayer_times (fuel + 1) c s).1 =
      (update_next_prayer fuel c
        { s with prayer_times :=
            (if (c.provider (c.today + 1)).code = 200 then
              setMidnight (parseTimings c.today (c.provider c.today).timings)
                (time_to_datetime c.today (c.provider c.today).timings.isha +
                  Int.fdiv
                    (mkQDateTime (c.today + 1)
                        ((c.provider (c.today + 1)).timings.fajr).toSecs -
                      time_to_datetime c.today (c.provider c.today).timings.isha) 2)
            else parseTimings c.today (c.provider c.today).timings) }).1 := by
  conv =>
    lhs
    rw [update_prayer_times]
  rw [if_pos h200]

/-- C9: With an always-succeeding provider and a fixed context, running
the full refresh twice in immediate succession yields exactly the same
state — same stored set, same next prayer name and timestamp, same
labels — as running it once: no state accumulates across the calls. -/
theorem update_data_idempotent
    (fuel : Nat) (c : Ctx) (s : WidgetState)
    (h200 : (c.provider c.today).code = 200)
    (ht200 : (c.provider (c.today + 1)).code = 200)
    (hnow : c.now < (c.today + 1) * 86400) :
    (update_data (fuel + 3) c (update_data (fuel + 3) c s).1).1 =
      (update_data (fuel + 3) c s).1 := by
  unfold update_data
  rw [show fuel + 3 = fuel + 2 + 1 from rfl]
  have e2 := update_prayer_times_succ_eq (fuel + 2) c
    (update_prayer_times (fuel + 2 + 1) c s).1 h200
  have e1 := update_prayer_times_succ_eq (fuel + 2) c s h200
  rw [e2, e1]
  exact update_next_prayer_state_indep fuel c _ _ rfl ht200 hnow

/-- Witness for C9: two successive refreshes from the fresh state at
noon of day 0 agree. -/
theorem update_data_idempotent_witness :
    (update_data 4 sampleCtx (update_data 4 sampleCtx initialState).1).1 =
      (update_data 4 sampleCtx initialState).1 :=
  update_data_idempotent 1 sampleCtx initialState (by decide) (by decide) (by decide)

/-- C10: The time-string conversion always attaches today's date, so for
a valid "HH:mm" reading the result lies within today's day interval;
consequently every freshly parsed entry — the raw Midnight and the
initially parsed tomorrow-Fajr included — is a timestamp on today's
date, and a raw Midnight of 00:30 denotes early this morning, before a
05:00 Fajr. -/
theorem time_to_datetime_on_today
    (today : Int) (tm : Timings) (hv : tm.valid) :
    (∀ t : ClockTime, t.valid →
        mkQDateTime today 0 ≤ time_to_datetime today t ∧
        time_to_datetime today t < mkQDateTime (today + 1) 0) ∧
    (∀ e ∈ parseTimings today tm,
        mkQDateTime today 0 ≤ e.2 ∧ e.2 < mkQDateTime (today + 1) 0) ∧
    time_to_datetime today ⟨0, 30⟩ < time_to_datetime today ⟨5, 0⟩ := by
  have hgen : ∀ t : ClockTime, t.valid →
      mkQDateTime today 0 ≤ time_to_datetime today t ∧
      time_to_datetime today t < mkQDateTime (today + 1) 0 := by
    intro t ht
    obtain ⟨hh, hm⟩ := ht
    unfold time_to_datetime mkQDateTime ClockTime.toSecs
    have hlt : t.hour * 3600 + t.minute * 60 < 86400 := by omega
    have hnn : (0 : Int) ≤ ((t.hour * 3600 + t.minute * 60 : Nat) : Int) :=
      Int.ofNat_nonneg _
    constructor
    · omega
    · omega
  obtain ⟨hf, hs, hd, ha, hmg, hi, hmid⟩ := hv
  refine ⟨hgen, ?_, ?_⟩
  · intro e he
    simp only [parseTimings, List.mem_cons, List.not_mem_nil, or_false] at he
    rcases he with rfl | rfl | rfl | rfl | rfl | rfl | rfl
    · exact hgen _ hf
    · exact hgen _ hs
    · exact hgen _ hd
    · exact hgen _ ha
    · exact hgen _ hmg
    · exact hgen _ hi
    · exact hgen _ hmid
  · show mkQDateTime today (ClockTime.toSecs ⟨0, 30⟩) <
      mkQDateTime today (ClockTime.toSecs ⟨5, 0⟩)
    rw [show ClockTime.toSecs ⟨0, 30⟩ = 1800 from rfl,
        show ClockTime.toSecs ⟨5, 0⟩ = 18000 from rfl]
    unfold mkQDateTime
    omega

/-- Witness for C10 on the sample day, taken with today = day 0. -/
theorem time_to_datetime_on_today_witness :
    (∀ t : ClockTime, t.valid →
        mkQDateTime 0 0 ≤ time_to_datetime 0 t ∧
        time_to_datetime 0 t < mkQDateTime (0 + 1) 0) ∧
    (∀ e ∈ parseTimings 0 sampleTimings,
        mkQDateTime 0 0 ≤ e.2 ∧ e.2 < mkQDateTime (0 + 1) 0) ∧
    time_to_datetime 0 ⟨0, 30⟩ < time_to_datetime 0 ⟨5, 0⟩ :=
  time_to_datetime_on_today 0 sampleTimings (by decide)
